import Mathlib

/-!
Verification of the BNI chapter-analytics core: shallow embedding of the
spreadsheet-ingestion and matrix-derivation pipeline
(`backend/members/models.py`, `backend/bni/services/matrix_generator.py`,
`backend/bni/services/comparison_service.py`,
`backend/bni/services/excel_processor.py`) together with proofs and
refutations of the specification's claims about it.
-/

namespace BNI

/-! ## Name normalization (`Member.normalize_name`, members/models.py)

Python's `str.lower()` is modelled on the ASCII range (member names in this
data set are ASCII); `str.split()` (no argument) splits on runs of whitespace
and drops empty pieces.  Strings are unpacked to `List Char` so every step is
a structural recursion. -/

/-- Python `str.lower` is modelled by `Char.toLower` mapped over the string:
both lowercase exactly the ASCII uppercase letters. -/
def pyLower (s : String) : String := String.mk (s.data.map Char.toLower)

/-- Python `str.split()`: accumulate non-whitespace runs; `acc` holds the
current word reversed. -/
def wordsAux : List Char → List Char → List (List Char)
  | [], acc => if acc.isEmpty then [] else [acc.reverse]
  | c :: cs, acc =>
    if c.isWhitespace then
      if acc.isEmpty then wordsAux cs [] else acc.reverse :: wordsAux cs []
    else
      wordsAux cs (c :: acc)

/-- The words of a character list (Python `s.split()`). -/
def pyWords (l : List Char) : List (List Char) := wordsAux l []

/-- Python `' '.join(words)`. -/
def joinSp : List (List Char) → List Char
  | [] => []
  | [w] => w
  | w :: ws => w ++ ' ' :: joinSp ws

/-- The leading titles stripped by `Member.normalize_name`. -/
def titleTokens : List (List Char) :=
  ["mr.".data, "mrs.".data, "ms.".data, "dr.".data, "prof.".data]

/-- The trailing suffixes stripped by `Member.normalize_name`. -/
def suffixTokens : List (List Char) :=
  ["jr.".data, "sr.".data, "ii".data, "iii".data, "iv".data]

/-- `if parts and parts[0] in prefixes: parts = parts[1:]` -/
def stripTitle (ws : List (List Char)) : List (List Char) :=
  match ws with
  | [] => []
  | w :: rest => if w ∈ titleTokens then rest else w :: rest

/-- `if parts and parts[-1] in suffixes: parts = parts[:-1]` -/
def stripTrailing (ws : List (List Char)) : List (List Char) :=
  match ws.getLast? with
  | some w => if w ∈ suffixTokens then ws.dropLast else ws
  | none => ws

/-- The word list of a normalized name. -/
def normalizeWords (l : List Char) : List (List Char) :=
  stripTrailing (stripTitle (pyWords (l.map Char.toLower)))

/-- `Member.normalize_name` (members/models.py): lowercase, collapse
whitespace, strip one leading title and one trailing suffix.  (Python's
`if not name: return ""` guard corresponds to the empty-string case; joining
the processed word list with single spaces realizes both `' '.join(...)`
steps at once.) -/
def normalize_name (name : String) : String :=
  if name = "" then "" else String.mk (joinSp (normalizeWords name.data))

/-! ## Matrix generator (`MatrixGenerator`, bni/services/matrix_generator.py)

The matrix cells are addressed by member `full_name` labels in the source
(pandas `DataFrame.loc`).  Member `full_name`s are pairwise distinct for a
real roster (a chapter's members are unique by `normalized_name`, enforced by
the `unique_together` constraint), so label addressing is modelled by the
first position of the name in the index list; theorems carry a `Nodup`
hypothesis where this matters. -/

/-- A chapter member; the matrix code only reads `full_name`
(`f"{first_name} {last_name}"`). -/
structure Member where
  first_name : String
  last_name : String
deriving DecidableEq, Repr

/-- `Member.full_name` property. -/
def Member.full_name (m : Member) : String := m.first_name ++ " " ++ m.last_name

/-- A `Referral` row as consumed by the matrix generator (giver/receiver
member references). -/
structure ReferralRec where
  giver : Member
  receiver : Member
deriving DecidableEq, Repr

/-- A `OneToOne` row as consumed by the matrix generator. -/
structure OneToOneRec where
  member1 : Member
  member2 : Member
deriving DecidableEq, Repr

/-- `pd.DataFrame(0, index=member_names, columns=member_names)`. -/
def mkZero (n : Nat) : List (List Nat) := List.replicate n (List.replicate n 0)

/-- Read cell (i, j); out-of-range reads as 0 (all constructed matrices are
square, so this total accessor agrees with the source on valid indices). -/
def matGet (m : List (List Nat)) (i j : Nat) : Nat := (m.getD i []).getD j 0

/-- `matrix.loc[a, b] += 1` at positions (i, j). -/
def incCell (m : List (List Nat)) (i j : Nat) : List (List Nat) :=
  List.modify (fun row => List.modify (· + 1) j row) i m

/-- The `MatrixGenerator.__init__` member-name index: members sorted by
`full_name`, then projected to their display names. -/
def member_names (members : List Member) : List String :=
  (members.mergeSort (fun a b => a.full_name ≤ b.full_name)).map Member.full_name

/-- One iteration of the referral loop: skip the record unless both names are
matrix labels, else increment (giver, receiver). -/
def applyReferral (names : List String) (m : List (List Nat)) (r : ReferralRec) :
    List (List Nat) :=
  if names.contains r.giver.full_name && names.contains r.receiver.full_name then
    incCell m (names.indexOf r.giver.full_name) (names.indexOf r.receiver.full_name)
  else m

/-- `MatrixGenerator.generate_referral_matrix`. -/
def generate_referral_matrix (names : List String) (referrals : List ReferralRec) :
    List (List Nat) :=
  referrals.foldl (applyReferral names) (mkZero names.length)

/-- One iteration of the one-to-one loop: a meeting whose both participants
are labels increments (member1, member2) AND (member2, member1). -/
def applyOneToOne (names : List String) (m : List (List Nat)) (o : OneToOneRec) :
    List (List Nat) :=
  if names.contains o.member1.full_name && names.contains o.member2.full_name then
    incCell (incCell m (names.indexOf o.member1.full_name) (names.indexOf o.member2.full_name))
      (names.indexOf o.member2.full_name) (names.indexOf o.member1.full_name)
  else m

/-- `MatrixGenerator.generate_one_to_one_matrix`. -/
def generate_one_to_one_matrix (names : List String) (one_to_ones : List OneToOneRec) :
    List (List Nat) :=
  one_to_ones.foldl (applyOneToOne names) (mkZero names.length)

/-- `MatrixGenerator.generate_combination_matrix`: 0 = neither, 1 = OTO only,
2 = referral only, 3 = both; the i == j iteration is skipped (cell stays 0). -/
def generate_combination_matrix (names : List String) (referrals : List ReferralRec)
    (one_to_ones : List OneToOneRec) : List (List Nat) :=
  let ref := generate_referral_matrix names referrals
  let oto := generate_one_to_one_matrix names one_to_ones
  (List.range names.length).map fun i =>
    (List.range names.length).map fun j =>
      if i = j then 0
      else if 0 < matGet ref i j ∧ 0 < matGet oto i j then 3
      else if 0 < matGet ref i j then 2
      else if 0 < matGet oto i j then 1
      else 0

/-! ## Comparison engine (`ComparisonService`, bni/services/comparison_service.py) -/

/-- A cached matrix snapshot (`{'members': [...], 'matrix': [[...]]}`). -/
structure MatrixData where
  members : List String
  matrix : List (List Nat)
deriving Repr

/-- The three-way trend classification; the source also stores a display
glyph (`direction`) fully determined by the status, not modelled. -/
inductive Status where
  | improved
  | declined
  | no_change
deriving DecidableEq, Repr

/-- One entry of `member_changes` in referral/OTO comparisons. -/
structure MemberChange where
  current_total : Nat
  previous_total : Nat
  change : Int
  current_unique : Nat
  previous_unique : Nat
  unique_change : Int
  status : Status
  is_new_member : Bool
deriving DecidableEq, Repr

/-- `sum(matrix[i])` guarded by `i < len(matrix)`. -/
def rowTotal (mat : List (List Nat)) (i : Nat) : Nat := (mat.getD i []).sum

/-- `sum(1 for val in matrix[i] if val > 0)` guarded by `i < len(matrix)`. -/
def rowUnique (mat : List (List Nat)) (i : Nat) : Nat :=
  ((mat.getD i []).filter (fun v => decide (0 < v))).length

/-- `next(idx for idx, name in enumerate(previous_members)
if Member.normalize_name(name) == normalized_name)`, `None` on exhaustion. -/
def findPrevIndex (previous_members : List String) (normalized : String) : Option Nat :=
  previous_members.findIdx? (fun name => normalize_name name == normalized)

/-- The per-member record computed by one iteration of
`compare_referral_matrices` (identically `compare_oto_matrices`). -/
def mkMemberChange (cur prev : MatrixData) (i : Nat) (name : String) : MemberChange :=
  let prevIdx := findPrevIndex prev.members (normalize_name name)
  let current_total := rowTotal cur.matrix i
  let previous_total : Nat := match prevIdx with
    | some j => rowTotal prev.matrix j
    | none => 0
  let current_unique := rowUnique cur.matrix i
  let previous_unique : Nat := match prevIdx with
    | some j => rowUnique prev.matrix j
    | none => 0
  let change : Int := (current_total : Int) - (previous_total : Int)
  { current_total := current_total
    previous_total := previous_total
    change := change
    current_unique := current_unique
    previous_unique := previous_unique
    unique_change := (current_unique : Int) - (previous_unique : Int)
    status := if 0 < change then Status.improved
      else if change < 0 then Status.declined
      else Status.no_change
    is_new_member := prevIdx.isNone }

/-- Python `dict` insertion under insertion-order iteration: overwrite in
place when the key exists, append otherwise. -/
def dictInsert {α : Type} (l : List (String × α)) (k : String) (v : α) :
    List (String × α) :=
  if l.any (fun p => p.1 == k) then
    l.map (fun p => if p.1 == k then (k, v) else p)
  else
    l ++ [(k, v)]

/-- The `member_changes` dict of `compare_referral_matrices`. -/
def memberChanges (cur prev : MatrixData) : List (String × MemberChange) :=
  cur.members.enum.foldl
    (fun acc p => dictInsert acc p.2 (mkMemberChange cur prev p.1 p.2)) []

/-- One element of `top_improvements` / `top_declines`. -/
structure TopEntry where
  member : String
  change : Int
  current : Nat
  previous : Nat
deriving DecidableEq, Repr

/-- The summary dict of `_calculate_summary`. -/
structure Summary where
  total_members : Nat
  improved : Nat
  declined : Nat
  no_change : Nat
  new_members : Nat
  top_improvements : List TopEntry
  top_declines : List TopEntry
  average_change : ℚ
  improvement_rate : ℚ

/-- Python `round(q, ndigits)`; ties are astronomically unlikely to matter
here and none of the claims depends on the tie-breaking rule (the source
rounds binary floats, which has no exact decimal tie anyway). -/
def pyRound (q : ℚ) (ndigits : Nat) : ℚ :=
  (round (q * 10 ^ ndigits) : ℚ) / 10 ^ ndigits

/-- `ComparisonService._calculate_summary`. -/
def calculate_summary (member_changes : List (String × MemberChange)) : Summary :=
  let total_members := member_changes.length
  let improved := (member_changes.filter (fun p => p.2.status == Status.improved)).length
  let declined := (member_changes.filter (fun p => p.2.status == Status.declined)).length
  let no_change := (member_changes.filter (fun p => p.2.status == Status.no_change)).length
  let new_members := (member_changes.filter (fun p => p.2.is_new_member)).length
  let sorted_by_change :=
    member_changes.mergeSort (fun a b => decide (b.2.change ≤ a.2.change))
  let top_improvements :=
    ((sorted_by_change.take 5).filter (fun p => decide (0 < p.2.change))).map
      (fun p => TopEntry.mk p.1 p.2.change p.2.current_total p.2.previous_total)
  let ascending :=
    sorted_by_change.mergeSort (fun a b => decide (a.2.change ≤ b.2.change))
  let top_declines :=
    ((ascending.take 5).filter (fun p => decide (p.2.change < 0))).map
      (fun p => TopEntry.mk p.1 p.2.change p.2.current_total p.2.previous_total)
  let existing := member_changes.filter (fun p => !p.2.is_new_member)
  let average_change : ℚ :=
    if existing.length = 0 then 0
    else ((existing.map (fun p => p.2.change)).sum : ℚ) / (existing.length : ℚ)
  let improvement_rate : ℚ :=
    if 0 < total_members then (improved : ℚ) / (total_members : ℚ) * 100 else 0
  { total_members := total_members
    improved := improved
    declined := declined
    no_change := no_change
    new_members := new_members
    top_improvements := top_improvements
    top_declines := top_declines
    average_change := pyRound average_change 2
    improvement_rate := pyRound improvement_rate 1 }

/-- The dict returned by `compare_referral_matrices` (and, with identical
code, `compare_oto_matrices`). -/
structure CompareResult where
  members : List String
  current_matrix : List (List Nat)
  previous_matrix : List (List Nat)
  member_changes : List (String × MemberChange)
  summary : Summary

/-- `ComparisonService.compare_referral_matrices` on present data (the
`not current_data or not previous_data` soft-error guard is handled at the
call sites, see `compareRefOpt`). -/
def compare_referral_matrices (cur prev : MatrixData) : CompareResult :=
  let mc := memberChanges cur prev
  { members := cur.members
    current_matrix := cur.matrix
    previous_matrix := prev.matrix
    member_changes := mc
    summary := calculate_summary mc }

/-- `ComparisonService.compare_oto_matrices`: the source duplicates the body
of `compare_referral_matrices` verbatim. -/
def compare_oto_matrices (cur prev : MatrixData) : CompareResult :=
  compare_referral_matrices cur prev

/-- Category tallies of one combination-matrix row. -/
structure CombCounts where
  neither : Nat
  oto_only : Nat
  referral_only : Nat
  both : Nat
deriving DecidableEq, Repr

/-- Count a row by combination category. -/
def countsOfRow (row : List Nat) : CombCounts :=
  { neither := (row.filter (fun v => v == 0)).length
    oto_only := (row.filter (fun v => v == 1)).length
    referral_only := (row.filter (fun v => v == 2)).length
    both := (row.filter (fun v => v == 3)).length }

/-- One entry of `member_changes` in `compare_combination_matrices`. -/
structure CombChange where
  current_counts : CombCounts
  previous_counts : CombCounts
  change_neither : Int
  change_oto_only : Int
  change_referral_only : Int
  change_both : Int
  improvement_score : Int
  status : Status
  is_new_member : Bool
deriving DecidableEq, Repr

/-- The per-member record of one iteration of
`compare_combination_matrices`. -/
def mkCombChange (cur prev : MatrixData) (i : Nat) (name : String) : CombChange :=
  let prevIdx := findPrevIndex prev.members (normalize_name name)
  let current_counts := countsOfRow (cur.matrix.getD i [])
  let previous_counts : CombCounts := match prevIdx with
    | some j =>
      if j < prev.matrix.length then countsOfRow (prev.matrix.getD j [])
      else ⟨0, 0, 0, 0⟩
    | none => ⟨0, 0, 0, 0⟩
  let change_both : Int := (current_counts.both : Int) - (previous_counts.both : Int)
  let change_neither : Int := (current_counts.neither : Int) - (previous_counts.neither : Int)
  let improvement_score := change_both - change_neither
  { current_counts := current_counts
    previous_counts := previous_counts
    change_neither := change_neither
    change_oto_only := (current_counts.oto_only : Int) - (previous_counts.oto_only : Int)
    change_referral_only :=
      (current_counts.referral_only : Int) - (previous_counts.referral_only : Int)
    change_both := change_both
    improvement_score := improvement_score
    status := if 0 < improvement_score then Status.improved
      else if improvement_score < 0 then Status.declined
      else Status.no_change
    is_new_member := prevIdx.isNone }

/-- One element of the combination summary's top lists. -/
structure CombTopEntry where
  member : String
  improvement_score : Int
  both_change : Int
  neither_change : Int
deriving DecidableEq, Repr

/-- The summary dict of `_calculate_combination_summary`. -/
structure CombSummary where
  total_members : Nat
  improved : Nat
  declined : Nat
  no_change : Nat
  new_members : Nat
  top_improvements : List CombTopEntry
  top_declines : List CombTopEntry
  average_improvement_score : ℚ
  improvement_rate : ℚ

/-- `ComparisonService._calculate_combination_summary`. -/
def calculate_combination_summary (member_changes : List (String × CombChange)) :
    CombSummary :=
  let total_members := member_changes.length
  let improved := (member_changes.filter (fun p => p.2.status == Status.improved)).length
  let declined := (member_changes.filter (fun p => p.2.status == Status.declined)).length
  let no_change := (member_changes.filter (fun p => p.2.status == Status.no_change)).length
  let new_members := (member_changes.filter (fun p => p.2.is_new_member)).length
  let sorted_by_score :=
    member_changes.mergeSort (fun a b => decide (b.2.improvement_score ≤ a.2.improvement_score))
  let top_improvements :=
    ((sorted_by_score.take 5).filter (fun p => decide (0 < p.2.improvement_score))).map
      (fun p => CombTopEntry.mk p.1 p.2.improvement_score p.2.change_both p.2.change_neither)
  let ascending :=
    sorted_by_score.mergeSort (fun a b => decide (a.2.improvement_score ≤ b.2.improvement_score))
  let top_declines :=
    ((ascending.take 5).filter (fun p => decide (p.2.improvement_score < 0))).map
      (fun p => CombTopEntry.mk p.1 p.2.improvement_score p.2.change_both p.2.change_neither)
  let existing := member_changes.filter (fun p => !p.2.is_new_member)
  let average_improvement_score : ℚ :=
    if existing.length = 0 then 0
    else ((existing.map (fun p => p.2.improvement_score)).sum : ℚ) / (existing.length : ℚ)
  let improvement_rate : ℚ :=
    if 0 < total_members then (improved : ℚ) / (total_members : ℚ) * 100 else 0
  { total_members := total_members
    improved := improved
    declined := declined
    no_change := no_change
    new_members := new_members
    top_improvements := top_improvements
    top_declines := top_declines
    average_improvement_score := pyRound average_improvement_score 2
    improvement_rate := pyRound improvement_rate 1 }

/-- The dict returned by `compare_combination_matrices`. -/
structure CombCompareResult where
  members : List String
  current_matrix : List (List Nat)
  previous_matrix : List (List Nat)
  member_changes : List (String × CombChange)
  summary : CombSummary

/-- `ComparisonService.compare_combination_matrices` on present data. -/
def compare_combination_matrices (cur prev : MatrixData) : CombCompareResult :=
  let mc := cur.members.enum.foldl
    (fun acc p => dictInsert acc p.2 (mkCombChange cur prev p.1 p.2)) []
  { members := cur.members
    current_matrix := cur.matrix
    previous_matrix := prev.matrix
    member_changes := mc
    summary := calculate_combination_summary mc }

/-- A persisted `MonthlyReport` as read by the comparison service: the
chapter foreign key and the three cached matrix snapshots (`none` models a
missing / empty `..._matrix_data` JSON field; report id and timestamps are
echo-only metadata, not modelled). -/
structure MonthlyReport where
  chapter : Nat
  referral_matrix_data : Option MatrixData
  oto_matrix_data : Option MatrixData
  combination_matrix_data : Option MatrixData

/-- The `if not current_data or not previous_data: return {'error': ...}`
guard of each matrix comparison; `Except.error` models the soft error dict,
not a raised exception. -/
def compareRefOpt (cur prev : Option MatrixData) : Except String CompareResult :=
  match cur, prev with
  | some c, some p => Except.ok (compare_referral_matrices c p)
  | _, _ => Except.error "Missing matrix data"

/-- Same guard for the OTO comparison. -/
def compareOtoOpt (cur prev : Option MatrixData) : Except String CompareResult :=
  match cur, prev with
  | some c, some p => Except.ok (compare_oto_matrices c p)
  | _, _ => Except.error "Missing matrix data"

/-- Same guard for the combination comparison. -/
def compareCombOpt (cur prev : Option MatrixData) : Except String CombCompareResult :=
  match cur, prev with
  | some c, some p => Except.ok (compare_combination_matrices c p)
  | _, _ => Except.error "Missing matrix data"

/-- The dict returned by `compare_monthly_reports` (report-metadata echoes
and the `overall_insights` digest of the three summaries are not referenced
by any claim and are omitted). -/
structure FullComparison where
  referral_comparison : Except String CompareResult
  oto_comparison : Except String CompareResult
  combination_comparison : Except String CombCompareResult

/-- `ComparisonService.compare_monthly_reports`: a `ValueError` is raised
(modelled by the outer `Except.error`) exactly when the two reports belong
to different chapters; otherwise the three sub-comparisons are packaged. -/
def compare_monthly_reports (current_report previous_report : MonthlyReport) :
    Except String FullComparison :=
  if current_report.chapter ≠ previous_report.chapter then
    Except.error "Cannot compare reports from different chapters"
  else
    Except.ok
      { referral_comparison :=
          compareRefOpt current_report.referral_matrix_data previous_report.referral_matrix_data
        oto_comparison :=
          compareOtoOpt current_report.oto_matrix_data previous_report.oto_matrix_data
        combination_comparison :=
          compareCombOpt current_report.combination_matrix_data
            previous_report.combination_matrix_data }

/-! ## Excel processor (`ExcelProcessorService`, bni/services/excel_processor.py)

A spreadsheet row is a `List (Option String)`: `none` is a missing / NaN
cell, `some s` a cell holding string `s`. -/

/-- Python `str.strip()`. -/
def pyStrip (s : String) : String :=
  String.mk (((s.data.dropWhile Char.isWhitespace).reverse.dropWhile Char.isWhitespace).reverse)

/-- Python falsiness of an optional string (`None` or `""`). -/
def isFalsy : Option String → Bool
  | none => true
  | some s => s == ""

/-- `ExcelProcessorService._get_cell_value`: `None` when the index is out of
range or the cell is NaN, else the stripped string. -/
def get_cell_value (row : List (Option String)) (column_index : Nat) : Option String :=
  match row.getD column_index none with
  | none => none
  | some s => some (pyStrip s)

/-- `COLUMN_MAPPINGS['giver_name']`. -/
def col_giver_name : Nat := 0

/-- `COLUMN_MAPPINGS['receiver_name']`. -/
def col_receiver_name : Nat := 1

/-- `COLUMN_MAPPINGS['slip_type']`. -/
def col_slip_type : Nat := 3

/-- `COLUMN_MAPPINGS['inside_outside']`. -/
def col_inside_outside : Nat := 5

/-- `COLUMN_MAPPINGS['tyfcb_amount']`. -/
def col_tyfcb_amount : Nat := 6

/-- `COLUMN_MAPPINGS['detail']`. -/
def col_detail : Nat := 9

/-- Value of a digit run (most significant first). -/
def digitsVal (l : List Char) : Nat := l.foldl (fun n c => n * 10 + (c.toNat - 48)) 0

/-- The value of a Python `float`: a finite value (exact, as a rational —
rounding to binary cannot change the sign comparisons the source performs
on currency amounts), NaN, or a signed infinity.  `float('nan')` is
unordered: both `nan <= 0` and `nan > 0` are False. -/
inductive PyFloat where
  | num (q : ℚ)
  | nan
  | inf
  | ninf
deriving DecidableEq, Repr

/-- Python's `amount <= 0` on a float: False for NaN (unordered) and +inf,
True for -inf. -/
def PyFloat.leZero : PyFloat → Bool
  | PyFloat.num q => decide (q ≤ 0)
  | PyFloat.nan => false
  | PyFloat.inf => false
  | PyFloat.ninf => true

/-- Python's `amount > 0` on a float: False for NaN (unordered) and -inf,
True for +inf. -/
def PyFloat.gtZero : PyFloat → Bool
  | PyFloat.num q => decide (0 < q)
  | PyFloat.nan => false
  | PyFloat.inf => true
  | PyFloat.ninf => false

/-- Consume a leading Python `digitpart` — digits with single underscores
allowed only between two digits (`1_0` is valid, `1_`, `_1`, `1__0` are
not).  Returns the digits with underscores removed and the unconsumed rest;
`none` when the input has no valid leading digitpart. -/
def splitDigitRun : List Char → Option (List Char × List Char)
  | [] => none
  | c :: cs =>
    if c.isDigit then
      match cs with
      | '_' :: rest =>
        match splitDigitRun rest with
        | some (ds, r) => some (c :: ds, r)
        | none => none
      | rest =>
        match splitDigitRun rest with
        | some (ds, r) => some (c :: ds, r)
        | none => some ([c], rest)
    else none

/-- Value of `intDigits.fracDigits` as a rational. -/
def decimalVal (intDigits fracDigits : List Char) : ℚ :=
  (digitsVal intDigits : ℚ) + (digitsVal fracDigits : ℚ) / (10 : ℚ) ^ fracDigits.length

/-- Finish a Python float literal after the mantissa: accept end of input or
an `e[sign]digitpart` exponent (input already lowercased). -/
def applyExp (q : ℚ) : List Char → Option ℚ
  | [] => some q
  | 'e' :: rest =>
    match rest with
    | '+' :: rest2 =>
      match splitDigitRun rest2 with
      | some (es, []) => some (q * (10 : ℚ) ^ digitsVal es)
      | _ => none
    | '-' :: rest2 =>
      match splitDigitRun rest2 with
      | some (es, []) => some (q / (10 : ℚ) ^ digitsVal es)
      | _ => none
    | _ =>
      match splitDigitRun rest with
      | some (es, []) => some (q * (10 : ℚ) ^ digitsVal es)
      | _ => none
  | _ => none

/-- The unsigned numeric part of Python's `float` grammar:
`digitpart ["." [digitpart]] [exponent]` or `"." digitpart [exponent]`. -/
def parseNum (l : List Char) : Option ℚ :=
  match splitDigitRun l with
  | some (ds, rest) =>
    match rest with
    | '.' :: rest2 =>
      match splitDigitRun rest2 with
      | some (fs, rest3) => applyExp (decimalVal ds fs) rest3
      | none => applyExp ((digitsVal ds : ℚ)) rest2
    | _ => applyExp ((digitsVal ds : ℚ)) rest
  | none =>
    match l with
    | '.' :: rest2 =>
      match splitDigitRun rest2 with
      | some (fs, rest3) => applyExp (decimalVal [] fs) rest3
      | none => none
    | _ => none

/-- Python `float(s)` on a stripped ASCII string: an optional sign followed
by `nan`, `inf` / `infinity` (case-insensitive) or decimal / exponent
notation; `none` models a raised `ValueError`. -/
def parseFloat (s : String) : Option PyFloat :=
  let l := s.data.map Char.toLower
  let sgn : Bool × List Char := match l with
    | '-' :: r => (true, r)
    | '+' :: r => (false, r)
    | r => (false, r)
  if sgn.2 = "nan".data then some PyFloat.nan
  else if sgn.2 = "inf".data ∨ sgn.2 = "infinity".data then
    some (if sgn.1 then PyFloat.ninf else PyFloat.inf)
  else
    (parseNum sgn.2).map (fun q => PyFloat.num (if sgn.1 then -q else q))

/-- `ExcelProcessorService._parse_currency_amount`: strip `$` and `,`, strip
whitespace, parse as a float; empty or unparseable input yields `0.0`.
Note that a cell spelled `nan` parses to float NaN, not to `0.0`. -/
def parse_currency_amount (amount_str : Option String) : PyFloat :=
  match amount_str with
  | none => PyFloat.num 0
  | some s =>
    let cleaned := pyStrip (String.mk (s.data.filter (fun c => !(c == '$') && !(c == ','))))
    if cleaned = "" then PyFloat.num 0
    else match parseFloat cleaned with
      | some f => f
      | none => PyFloat.num 0

/-- Dict access `lookup[k]` on the members-lookup table. -/
def lookupGet (lookup : List (String × Member)) (k : String) : Option Member :=
  (lookup.find? (fun p => p.1 == k)).map (fun p => p.2)

/-- `ExcelProcessorService._find_member_by_name`: normalized form first,
then the raw lowercase form, then the whitespace-collapsed lowercase form;
a total miss records a warning.  Returns the match and the warnings
appended to `self.warnings` by this call. -/
def find_member_by_name (name : Option String) (lookup : List (String × Member)) :
    Option Member × List String :=
  match name with
  | none => (none, [])
  | some raw =>
    let name := pyStrip raw
    if name = "" then (none, [])
    else
      match lookupGet lookup (normalize_name name) with
      | some m => (some m, [])
      | none =>
        match lookupGet lookup (pyLower name) with
        | some m => (some m, [])
        | none =>
          match lookupGet lookup (String.mk (joinSp (pyWords (pyLower name).data))) with
          | some m => (some m, [])
          | none => (none, ["Could not find member: " ++ name])

/-- A `TYFCB` row prepared for bulk insert (dates not modelled).  The
amount is the parsed float carried into `Decimal(str(amount))` — NaN
included (`Decimal('nan')` is NaN). -/
structure TYFCBRec where
  receiver : Member
  giver : Option Member
  amount : PyFloat
  within_chapter : Bool
  description : String
deriving DecidableEq, Repr

/-- `ExcelProcessorService._prepare_referral`; the second component is the
list of warnings the call appends. -/
def prepare_referral (row_idx : Nat) (giver_name receiver_name : Option String)
    (lookup : List (String × Member)) : Option ReferralRec × List String :=
  if isFalsy giver_name || isFalsy receiver_name then
    (none, ["Row " ++ toString (row_idx + 1) ++ ": Referral missing giver or receiver name"])
  else
    let g := find_member_by_name giver_name lookup
    let r := find_member_by_name receiver_name lookup
    match g.1 with
    | none =>
      (none, g.2 ++ r.2 ++
        ["Row " ++ toString (row_idx + 1) ++ ": Could not find giver " ++ giver_name.getD ""])
    | some giver =>
      match r.1 with
      | none =>
        (none, g.2 ++ r.2 ++
          ["Row " ++ toString (row_idx + 1) ++ ": Could not find receiver " ++
            receiver_name.getD ""])
      | some receiver =>
        if giver = receiver then
          (none, g.2 ++ r.2 ++
            ["Row " ++ toString (row_idx + 1) ++ ": Self-referral detected, skipping"])
        else
          (some ⟨giver, receiver⟩, g.2 ++ r.2)

/-- `ExcelProcessorService._prepare_one_to_one`. -/
def prepare_one_to_one (row_idx : Nat) (giver_name receiver_name : Option String)
    (lookup : List (String × Member)) : Option OneToOneRec × List String :=
  if isFalsy giver_name || isFalsy receiver_name then
    (none, ["Row " ++ toString (row_idx + 1) ++ ": One-to-one missing member names"])
  else
    let g := find_member_by_name giver_name lookup
    let r := find_member_by_name receiver_name lookup
    match g.1 with
    | none =>
      (none, g.2 ++ r.2 ++
        ["Row " ++ toString (row_idx + 1) ++ ": Could not find member " ++ giver_name.getD ""])
    | some member1 =>
      match r.1 with
      | none =>
        (none, g.2 ++ r.2 ++
          ["Row " ++ toString (row_idx + 1) ++ ": Could not find member " ++
            receiver_name.getD ""])
      | some member2 =>
        if member1 = member2 then
          (none, g.2 ++ r.2 ++
            ["Row " ++ toString (row_idx + 1) ++ ": Self-meeting detected, skipping"])
        else
          (some ⟨member1, member2⟩, g.2 ++ r.2)

/-- `ExcelProcessorService._prepare_tyfcb`. -/
def prepare_tyfcb (row : List (Option String)) (row_idx : Nat)
    (giver_name receiver_name : Option String) (lookup : List (String × Member)) :
    Option TYFCBRec × List String :=
  if isFalsy receiver_name then
    (none, ["Row " ++ toString (row_idx + 1) ++ ": TYFCB missing receiver name"])
  else
    let r := find_member_by_name receiver_name lookup
    match r.1 with
    | none =>
      (none, r.2 ++
        ["Row " ++ toString (row_idx + 1) ++ ": Could not find receiver " ++
          receiver_name.getD ""])
    | some receiver =>
      let g := if !isFalsy giver_name then find_member_by_name giver_name lookup
        else (none, [])
      let amount_str := get_cell_value row col_tyfcb_amount
      let amount := parse_currency_amount amount_str
      if amount.leZero then
        (none, r.2 ++ g.2 ++
          ["Row " ++ toString (row_idx + 1) ++ ": Invalid TYFCB amount: " ++
            amount_str.getD "None"])
      else
        let inside_outside := get_cell_value row col_inside_outside
        let within_chapter := match inside_outside with
          | some s => pyStrip (pyLower s) == "inside"
          | none => false
        let detail := get_cell_value row col_detail
        (some { receiver := receiver
                giver := g.1
                amount := amount
                within_chapter := within_chapter
                description := detail.getD "" }, r.2 ++ g.2)

/-- Substring test (Python `needle in haystack`) on character lists. -/
def listIsInfix (n : List Char) : List Char → Bool
  | [] => n.isEmpty
  | c :: cs => n.isPrefixOf (c :: cs) || listIsInfix n cs

/-- `ExcelProcessorService.SLIP_TYPES`, in dict order. -/
def SLIP_TYPES : List (String × List String) :=
  [("referral", ["referral", "ref"]),
   ("one_to_one", ["one to one", "oto", "1to1", "1-to-1", "one-to-one"]),
   ("tyfcb", ["tyfcb", "thank you for closed business", "closed business"])]

/-- `ExcelProcessorService._normalize_slip_type`: `None` for a falsy cell,
else the first standard type one of whose variations occurs in the
lowercased, stripped cell value. -/
def normalize_slip_type (slip_type : Option String) : Option String :=
  match slip_type with
  | none => none
  | some s0 =>
    if s0 = "" then none
    else
      let s := pyStrip (pyLower s0)
      (SLIP_TYPES.find? (fun p => p.2.any (fun v => listIsInfix v.data s.data))).map
        (fun p => p.1)

/-- The accumulator of `_process_dataframe`'s first pass: the three
to-create batches, `results['total_processed']`, and the service's
`warnings` / `errors` lists. -/
structure ProcState where
  referrals_to_create : List ReferralRec
  one_to_ones_to_create : List OneToOneRec
  tyfcbs_to_create : List TYFCBRec
  total_processed : Nat
  warnings : List String
  errors : List String

/-- The state at the start of `_process_dataframe`. -/
def initProcState : ProcState := ⟨[], [], [], 0, [], []⟩

/-- One iteration of `_process_dataframe`'s row loop: skip the first three
rows (metadata + headers), skip silently on a falsy slip-type cell, record
an "Unknown slip type" warning on an unrecognized one, and otherwise count
the row and dispatch on the normalized slip type. -/
def processRow (lookup : List (String × Member)) (st : ProcState) (idx : Nat)
    (row : List (Option String)) : ProcState :=
  if idx < 3 then st
  else
    let giver_name := get_cell_value row col_giver_name
    let receiver_name := get_cell_value row col_receiver_name
    let slip_type := get_cell_value row col_slip_type
    if isFalsy slip_type then st
    else
      match normalize_slip_type slip_type with
      | none =>
        { st with warnings := st.warnings ++
            ["Row " ++ toString (idx + 1) ++ ": Unknown slip type " ++ slip_type.getD ""] }
      | some t =>
        let st := { st with total_processed := st.total_processed + 1 }
        if t = "referral" then
          let o := prepare_referral idx giver_name receiver_name lookup
          { st with warnings := st.warnings ++ o.2
                    referrals_to_create := st.referrals_to_create ++ o.1.toList }
        else if t = "one_to_one" then
          let o := prepare_one_to_one idx giver_name receiver_name lookup
          { st with warnings := st.warnings ++ o.2
                    one_to_ones_to_create := st.one_to_ones_to_create ++ o.1.toList }
        else if t = "tyfcb" then
          let o := prepare_tyfcb row idx giver_name receiver_name lookup
          { st with warnings := st.warnings ++ o.2
                    tyfcbs_to_create := st.tyfcbs_to_create ++ o.1.toList }
        else st

/-- The first pass of `_process_dataframe` over all rows (`df.iterrows()`
with the default range index). -/
def process_dataframe (rows : List (List (Option String)))
    (lookup : List (String × Member)) : ProcState :=
  rows.enum.foldl (fun st p => processRow lookup st p.1 p.2) initProcState

/-! ## Sparse-XML decoder (`ExcelProcessorService._parse_xml_excel`)

The XML plumbing (namespaces, locating `Worksheet`/`Table`) is element-tree
traversal; the model starts from the extracted list of rows, each row a list
of cells carrying an optional 1-based `ss:Index` attribute and the text of
their `ss:Data` element (`""` when absent). -/

/-- One `ss:Cell` element. -/
structure XmlCell where
  index : Option Nat
  value : String

/-- The body of the cell loop: on an explicit 1-based index, fill the gap up
to it with empty strings (`while col_index < target_index`), then emit the
value and advance the cursor. -/
def decodeRowStep (st : List String × Nat) (cell : XmlCell) : List String × Nat :=
  let fill : List String × Nat :=
    match cell.index with
    | some idx => (st.1 ++ List.replicate (idx - 1 - st.2) "", max st.2 (idx - 1))
    | none => st
  (fill.1 ++ [cell.value], fill.2 + 1)

/-- Decode one sparse row to its dense `row_data`. -/
def decodeRow (cells : List XmlCell) : List String :=
  (cells.foldl decodeRowStep ([], 0)).1

/-- `while len(headers) < max_cols: headers.append(f"Column_{len(headers)}")`
with the remaining iteration count made explicit. -/
def padHeadersAux : Nat → List String → List String
  | 0, hs => hs
  | k + 1, hs => padHeadersAux k (hs ++ ["Column_" ++ toString hs.length])

/-- Pad the header row with synthesized column names. -/
def padHeaders (hs : List String) (maxCols : Nat) : List String :=
  padHeadersAux (maxCols - hs.length) hs

/-- `_parse_xml_excel` after XML extraction: first row is the header, the
rest are data rows; all rows are padded to the maximum observed column
count (headers with `Column_N` labels, data rows with empty strings).
Raises (`Except.error`) when there are no rows or the header row decodes
empty. -/
def parse_xml_excel (rows : List (List XmlCell)) :
    Except String (List String × List (List String)) :=
  let decoded := rows.map decodeRow
  match decoded with
  | [] => Except.error "No headers found in XML file"
  | headers :: dataRows =>
    if headers.isEmpty then Except.error "No headers found in XML file"
    else
      let maxCols := (decoded.map List.length).foldl max 0
      Except.ok (padHeaders headers maxCols,
        dataRows.map (fun r => r ++ List.replicate (maxCols - r.length) ""))

/-- Well-shapedness of a constructed matrix: n rows, each of the first n
row reads of length n (used as the fold invariant of the generators). -/
def SquareN (n : Nat) (m : List (List Nat)) : Prop :=
  m.length = n ∧ ∀ i, i < n → (m.getD i []).length = n

/-! ## Lemmas about words and lowercasing -/

theorem toNat_ofNat_valid (n : Nat) (h : n.isValidChar) : (Char.ofNat n).toNat = n := by
  rw [Char.ofNat, dif_pos h]
  simp [Char.ofNatAux, Char.toNat, UInt32.toNat, BitVec.toNat_ofNatLt]

theorem toLower_idem (c : Char) : c.toLower.toLower = c.toLower := by
  unfold Char.toLower
  by_cases h : c.toNat ≥ 65 ∧ c.toNat ≤ 90
  · rw [if_pos h]
    have ht : (Char.ofNat (c.toNat + 32)).toNat = c.toNat + 32 :=
      toNat_ofNat_valid _ (Or.inl (by omega))
    rw [if_neg]
    rw [ht]
    omega
  · rw [if_neg h, if_neg h]

theorem wordsAux_mem_ne_nil (l : List Char) :
    ∀ acc w, w ∈ wordsAux l acc → w ≠ [] := by
  induction l with
  | nil =>
    intro acc w hw
    unfold wordsAux at hw
    split at hw
    · simp at hw
    · rename_i hne
      simp only [List.mem_singleton] at hw
      subst hw
      intro hnil
      cases acc with
      | nil => simp at hne
      | cons a as => simp at hnil
  | cons d ds ih =>
    intro acc w hw
    unfold wordsAux at hw
    split at hw
    · split at hw
      · exact ih [] w hw
      · rename_i hne
        rcases List.mem_cons.mp hw with h | h
        · subst h
          intro hnil
          cases acc with
          | nil => simp at hne
          | cons a as => simp at hnil
        · exact ih [] w h
    · exact ih (d :: acc) w hw

theorem wordsAux_mem_not_ws (l : List Char) :
    ∀ acc, (∀ c ∈ acc, c.isWhitespace = false) →
      ∀ w ∈ wordsAux l acc, ∀ c ∈ w, c.isWhitespace = false := by
  induction l with
  | nil =>
    intro acc hacc w hw c hc
    unfold wordsAux at hw
    split at hw
    · simp at hw
    · simp only [List.mem_singleton] at hw
      subst hw
      exact hacc c (List.mem_reverse.mp hc)
  | cons d ds ih =>
    intro acc hacc w hw c hc
    unfold wordsAux at hw
    split at hw
    · split at hw
      · exact ih [] (by simp) w hw c hc
      · rcases List.mem_cons.mp hw with h | h
        · subst h
          exact hacc c (List.mem_reverse.mp hc)
        · exact ih [] (by simp) w h c hc
    · rename_i hd
      refine ih (d :: acc) ?_ w hw c hc
      intro e he
      rcases List.mem_cons.mp he with h | h
      · subst h
        simpa using hd
      · exact hacc e h

theorem wordsAux_mem_subset (l : List Char) :
    ∀ acc w, w ∈ wordsAux l acc → ∀ c ∈ w, c ∈ l ∨ c ∈ acc := by
  induction l with
  | nil =>
    intro acc w hw c hc
    unfold wordsAux at hw
    split at hw
    · simp at hw
    · simp only [List.mem_singleton] at hw
      subst hw
      exact Or.inr (List.mem_reverse.mp hc)
  | cons d ds ih =>
    intro acc w hw c hc
    unfold wordsAux at hw
    split at hw
    · split at hw
      · rcases ih [] w hw c hc with h | h
        · exact Or.inl (List.mem_cons_of_mem d h)
        · simp at h
      · rcases List.mem_cons.mp hw with h | h
        · subst h
          exact Or.inr (List.mem_reverse.mp hc)
        · rcases ih [] w h c hc with h2 | h2
          · exact Or.inl (List.mem_cons_of_mem d h2)
          · simp at h2
    · rcases ih (d :: acc) w hw c hc with h | h
      · exact Or.inl (List.mem_cons_of_mem d h)
      · rcases List.mem_cons.mp h with h2 | h2
        · subst h2
          exact Or.inl (List.mem_cons_self c ds)
        · exact Or.inr h2

theorem wordsAux_append (w : List Char) :
    ∀ acc l, (∀ c ∈ w, c.isWhitespace = false) →
      wordsAux (w ++ l) acc = wordsAux l (w.reverse ++ acc) := by
  induction w with
  | nil => intro acc l _; simp
  | cons c cs ih =>
    intro acc l h
    have hc : c.isWhitespace = false := h c (List.mem_cons_self c cs)
    have step : wordsAux (c :: (cs ++ l)) acc = wordsAux (cs ++ l) (c :: acc) := by
      simp only [wordsAux]
      rw [if_neg (by simp [hc])]
    calc wordsAux ((c :: cs) ++ l) acc
        = wordsAux (cs ++ l) (c :: acc) := step
      _ = wordsAux l (cs.reverse ++ (c :: acc)) :=
          ih (c :: acc) l (fun e he => h e (List.mem_cons_of_mem c he))
      _ = wordsAux l ((c :: cs).reverse ++ acc) := by simp

theorem pyWords_joinSp (ws : List (List Char)) (h1 : ∀ w ∈ ws, w ≠ [])
    (h2 : ∀ w ∈ ws, ∀ c ∈ w, c.isWhitespace = false) :
    pyWords (joinSp ws) = ws := by
  induction ws with
  | nil => rfl
  | cons w ws ih =>
    have hw : w ≠ [] := h1 w (List.mem_cons_self w ws)
    cases ws with
    | nil =>
      show pyWords (joinSp [w]) = [w]
      unfold pyWords
      have hj : joinSp [w] = w ++ [] := by simp [joinSp]
      rw [hj, wordsAux_append w [] [] (h2 w (List.mem_cons_self w []))]
      simp only [wordsAux]
      rw [if_neg (by simpa using hw)]
      simp
    | cons w2 ws2 =>
      show pyWords (w ++ ' ' :: joinSp (w2 :: ws2)) = w :: w2 :: ws2
      unfold pyWords
      rw [wordsAux_append w [] _ (h2 w (List.mem_cons_self w _))]
      simp only [wordsAux]
      rw [if_pos (by decide)]
      rw [if_neg (by simpa using hw)]
      have ihr : wordsAux (joinSp (w2 :: ws2)) [] = w2 :: ws2 :=
        ih (fun v hv => h1 v (List.mem_cons_of_mem w hv))
          (fun v hv => h2 v (List.mem_cons_of_mem w hv))
      rw [ihr]
      simp

theorem map_toLower_joinSp (ws : List (List Char))
    (h : ∀ w ∈ ws, ∀ c ∈ w, c.toLower = c) :
    (joinSp ws).map Char.toLower = joinSp ws := by
  induction ws with
  | nil => rfl
  | cons w ws ih =>
    have hmap : w.map Char.toLower = w := by
      have hcongr : ∀ c ∈ w, Char.toLower c = id c :=
        fun c hc => h w (List.mem_cons_self w ws) c hc
      rw [List.map_congr_left hcongr, List.map_id]
    cases ws with
    | nil => exact hmap
    | cons w2 ws2 =>
      show (w ++ ' ' :: joinSp (w2 :: ws2)).map Char.toLower = w ++ ' ' :: joinSp (w2 :: ws2)
      rw [List.map_append, hmap]
      have ihr : (joinSp (w2 :: ws2)).map Char.toLower = joinSp (w2 :: ws2) :=
        ih (fun v hv => h v (List.mem_cons_of_mem w hv))
      simp [ihr]

theorem stripTitle_subset (ws : List (List Char)) : ∀ w ∈ stripTitle ws, w ∈ ws := by
  intro w hw
  unfold stripTitle at hw
  split at hw
  · exact hw
  · split at hw
    · exact List.mem_cons_of_mem _ hw
    · exact hw

theorem stripTrailing_subset (ws : List (List Char)) : ∀ w ∈ stripTrailing ws, w ∈ ws := by
  intro w hw
  unfold stripTrailing at hw
  split at hw
  · split at hw
    · exact (List.dropLast_sublist ws).mem hw
    · exact hw
  · exact hw

theorem normalizeWords_mem_pyWords (l : List Char) :
    ∀ w ∈ normalizeWords l, w ∈ pyWords (l.map Char.toLower) := by
  intro w hw
  exact stripTitle_subset _ w (stripTrailing_subset _ w hw)

/-! ## Claim C1: idempotence of name normalization -/

/-- C1 counterexample: the claim "normalize(normalize(s)) == normalize(s)
for every input string s" is false at s = "mr. mr. a": one normalization
strips only the first leading title, leaving "mr. a", and a second
normalization strips again, yielding "a". -/
theorem normalize_name_not_idempotent :
    normalize_name (normalize_name "mr. mr. a") ≠ normalize_name "mr. mr. a" := by
  decide

/-- C1 (amended): normalization is idempotent for every string whose
once-normalized form does not itself again begin with a title token or end
with a suffix token (a second application strips at most one more leading
title and one more trailing suffix). -/
theorem normalize_name_idem (s : String)
    (h1 : stripTitle (normalizeWords s.data) = normalizeWords s.data)
    (h2 : stripTrailing (normalizeWords s.data) = normalizeWords s.data) :
    normalize_name (normalize_name s) = normalize_name s := by
  by_cases hs : s = ""
  · subst hs
    rfl
  · have hns : normalize_name s = String.mk (joinSp (normalizeWords s.data)) := by
      unfold normalize_name
      rw [if_neg hs]
    set ws := normalizeWords s.data with hws
    have hA : ∀ w ∈ ws, w ≠ [] := fun w hw =>
      wordsAux_mem_ne_nil _ [] w (normalizeWords_mem_pyWords _ w hw)
    have hB : ∀ w ∈ ws, ∀ c ∈ w, c.isWhitespace = false := fun w hw =>
      wordsAux_mem_not_ws _ [] (by simp) w (normalizeWords_mem_pyWords _ w hw)
    have hC : ∀ w ∈ ws, ∀ c ∈ w, c.toLower = c := by
      intro w hw c hc
      rcases wordsAux_mem_subset _ [] w (normalizeWords_mem_pyWords _ w hw) c hc with h | h
      · rcases List.mem_map.mp h with ⟨d, _, rfl⟩
        exact toLower_idem d
      · simp at h
    rw [hns]
    by_cases hj : joinSp ws = []
    · rw [hj]
      decide
    · have hne : String.mk (joinSp ws) ≠ "" := by
        intro h
        exact hj (by simpa using congrArg String.data h)
      unfold normalize_name
      rw [if_neg hne]
      show String.mk (joinSp (normalizeWords (joinSp ws))) = String.mk (joinSp ws)
      have hfix : normalizeWords (joinSp ws) = ws := by
        unfold normalizeWords
        rw [map_toLower_joinSp ws hC, pyWords_joinSp ws hA hB, h1, h2]
      rw [hfix]

/-- Witness for `normalize_name_idem` at a concrete input. -/
theorem normalize_name_idem_witness :
    normalize_name (normalize_name "Mr. John Smith") = normalize_name "Mr. John Smith" :=
  normalize_name_idem "Mr. John Smith" (by decide) (by decide)

/-! ## Lemmas about the matrix cell operations -/

theorem matGet_mkZero (n i j : Nat) : matGet (mkZero n) i j = 0 := by
  unfold matGet mkZero
  by_cases hi : i < n <;> by_cases hj : j < n <;>
    simp [List.getD_eq_getElem?_getD, List.getElem?_replicate, hi, hj]

theorem SquareN_mkZero (n : Nat) : SquareN n (mkZero n) := by
  constructor
  · simp [mkZero]
  · intro i hi
    unfold mkZero
    rw [List.getD_eq_getElem?_getD, List.getElem?_replicate, if_pos hi]
    simp

theorem getD_modify {α : Type} (d : α) (f : α → α) (k : Nat) (l : List α) (i : Nat)
    (hi : i < l.length) :
    (List.modify f k l).getD i d = if k = i then f (l.getD i d) else l.getD i d := by
  by_cases h : k = i <;>
    simp [List.getD_eq_getElem?_getD, List.getElem?_modify,
      List.getElem?_eq_getElem hi, h]

theorem getD_modify_oob {α : Type} (d : α) (f : α → α) (k : Nat) (l : List α) (i : Nat)
    (hi : l.length ≤ i) :
    (List.modify f k l).getD i d = l.getD i d := by
  rw [List.getD_eq_getElem?_getD, List.getD_eq_getElem?_getD, List.getElem?_eq_none hi,
    List.getElem?_eq_none (by simpa [List.length_modify] using hi)]

theorem SquareN_incCell {n : Nat} {m : List (List Nat)} (hm : SquareN n m) (a b : Nat) :
    SquareN n (incCell m a b) := by
  constructor
  · unfold incCell
    rw [List.length_modify]
    exact hm.1
  · intro i hi
    unfold incCell
    rw [getD_modify [] _ a m i (hm.1 ▸ hi)]
    by_cases hai : a = i
    · rw [if_pos hai, List.length_modify]
      exact hm.2 i hi
    · rw [if_neg hai]
      exact hm.2 i hi

theorem matGet_incCell_sq {n : Nat} {m : List (List Nat)} (hm : SquareN n m)
    {a b : Nat} (ha : a < n) (hb : b < n) (i j : Nat) :
    matGet (incCell m a b) i j =
      if a = i ∧ b = j then matGet m i j + 1 else matGet m i j := by
  unfold matGet incCell
  by_cases hil : i < m.length
  · rw [getD_modify [] _ a m i hil]
    by_cases hai : a = i
    · rw [if_pos hai]
      have hrowlen : (m.getD i []).length = n := hm.2 i (by omega)
      by_cases hjl : j < (m.getD i []).length
      · rw [getD_modify 0 _ b _ j hjl]
        by_cases hbj : b = j
        · rw [if_pos hbj, if_pos ⟨hai, hbj⟩]
        · rw [if_neg hbj, if_neg (fun h => hbj h.2)]
      · rw [getD_modify_oob 0 _ b _ j (Nat.le_of_not_lt hjl)]
        have hcond : ¬ (a = i ∧ b = j) := by
          rintro ⟨h1, h2⟩
          exact hjl (by rw [hrowlen]; omega)
        rw [if_neg hcond]
    · rw [if_neg hai, if_neg (fun h => hai h.1)]
  · have hlen := hm.1
    rw [getD_modify_oob [] _ a m i (Nat.le_of_not_lt hil)]
    have hcond : ¬ (a = i ∧ b = j) := by
      rintro ⟨h1, h2⟩
      exact hil (by omega)
    rw [if_neg hcond]

theorem indexOf_eq_iff (names : List String) (hnd : names.Nodup) (g : String)
    (hg : g ∈ names) (i : Nat) (hi : i < names.length) :
    names.indexOf g = i ↔ g = names[i] := by
  constructor
  · intro h
    have hlt : names.indexOf g < names.length := List.indexOf_lt_length.mpr hg
    have h1 : names[names.indexOf g]? = some g := by
      rw [List.getElem?_eq_getElem hlt, List.getElem_indexOf hlt]
    rw [h, List.getElem?_eq_getElem hi] at h1
    exact (Option.some.inj h1).symm
  · intro h
    subst h
    have hlt : names.indexOf names[i] < names.length :=
      List.indexOf_lt_length.mpr (List.getElem_mem hi)
    exact (hnd.getElem_inj_iff).mp (List.getElem_indexOf hlt)

theorem matGet_foldl_applyReferral (names : List String) (hnd : names.Nodup)
    (rs : List ReferralRec) (m : List (List Nat)) (hm : SquareN names.length m)
    (i j : Nat) (hi : i < names.length) (hj : j < names.length) :
    matGet (rs.foldl (applyReferral names) m) i j =
      matGet m i j +
        (rs.filter (fun r => r.giver.full_name == names[i] &&
          r.receiver.full_name == names[j])).length := by
  induction rs generalizing m with
  | nil => simp
  | cons r rs ih =>
    show matGet (rs.foldl (applyReferral names) (applyReferral names m r)) i j = _
    rw [List.filter_cons]
    by_cases hc : (names.contains r.giver.full_name &&
        names.contains r.receiver.full_name) = true
    · have hmem := hc
      simp only [List.contains, Bool.and_eq_true, List.elem_iff] at hmem
      have hglt : names.indexOf r.giver.full_name < names.length :=
        List.indexOf_lt_length.mpr hmem.1
      have hrlt : names.indexOf r.receiver.full_name < names.length :=
        List.indexOf_lt_length.mpr hmem.2
      have happ : applyReferral names m r =
          incCell m (names.indexOf r.giver.full_name)
            (names.indexOf r.receiver.full_name) := by
        unfold applyReferral
        rw [if_pos hc]
      rw [happ, ih _ (SquareN_incCell hm _ _), matGet_incCell_sq hm hglt hrlt i j]
      by_cases hd : names.indexOf r.giver.full_name = i ∧
          names.indexOf r.receiver.full_name = j
      · have hp : (r.giver.full_name == names[i] && r.receiver.full_name == names[j]) = true := by
          simp only [Bool.and_eq_true, beq_iff_eq]
          exact ⟨(indexOf_eq_iff names hnd _ hmem.1 i hi).mp hd.1,
            (indexOf_eq_iff names hnd _ hmem.2 j hj).mp hd.2⟩
        rw [if_pos hd, if_pos hp]
        simp only [List.length_cons]
        omega
      · have hp : ¬ ((r.giver.full_name == names[i] &&
            r.receiver.full_name == names[j]) = true) := by
          intro h
          simp only [Bool.and_eq_true, beq_iff_eq] at h
          exact hd ⟨(indexOf_eq_iff names hnd _ hmem.1 i hi).mpr h.1,
            (indexOf_eq_iff names hnd _ hmem.2 j hj).mpr h.2⟩
        rw [if_neg hd, if_neg hp]
    · have happ : applyReferral names m r = m := by
        unfold applyReferral
        rw [if_neg hc]
      have hp : ¬ ((r.giver.full_name == names[i] &&
          r.receiver.full_name == names[j]) = true) := by
        intro h
        simp only [Bool.and_eq_true, beq_iff_eq] at h
        apply hc
        simp only [List.contains, Bool.and_eq_true, List.elem_iff]
        exact ⟨h.1 ▸ List.getElem_mem hi, h.2 ▸ List.getElem_mem hj⟩
      rw [happ, if_neg hp]
      exact ih m hm

/-! ## Claim C4: referral matrix cell counts and diagonal -/

/-- C4 counterexample: the claim's unconditional "every diagonal cell (i,i)
is 0" is false: a referral record naming the same roster member as giver and
receiver (which the matrix generator itself does not reject) increments the
diagonal. -/
theorem generate_referral_matrix_diagonal_counterexample :
    matGet (generate_referral_matrix ["a x"]
      [ReferralRec.mk (Member.mk "a" "x") (Member.mk "a" "x")]) 0 0 ≠ 0 := by
  decide

/-- C4 (amended): for a roster with distinct display names, cell (i,j) of
the generated referral matrix counts exactly the referral records whose
giver carries the display name at index i and whose receiver carries the
display name at index j (records naming a non-roster member are silently
ignored by this count); the diagonal is 0 provided no record carries the
same display name for giver and receiver. -/
theorem generate_referral_matrix_count (names : List String) (rs : List ReferralRec)
    (hnd : names.Nodup) (i j : Nat) (hi : i < names.length) (hj : j < names.length) :
    matGet (generate_referral_matrix names rs) i j =
      (rs.filter (fun r => r.giver.full_name == names[i] &&
        r.receiver.full_name == names[j])).length ∧
    ((∀ r ∈ rs, r.giver.full_name ≠ r.receiver.full_name) →
      matGet (generate_referral_matrix names rs) i i = 0) := by
  constructor
  · unfold generate_referral_matrix
    rw [matGet_foldl_applyReferral names hnd rs (mkZero names.length) (SquareN_mkZero _) i j hi
      hj, matGet_mkZero]
    omega
  · intro hs
    unfold generate_referral_matrix
    rw [matGet_foldl_applyReferral names hnd rs (mkZero names.length) (SquareN_mkZero _) i i hi
      hi, matGet_mkZero]
    have : rs.filter (fun r => r.giver.full_name == names[i] &&
        r.receiver.full_name == names[i]) = [] := by
      rw [List.filter_eq_nil_iff]
      intro r hr h
      simp only [Bool.and_eq_true, beq_iff_eq] at h
      exact hs r hr (h.1.trans h.2.symm)
    rw [this]
    rfl

/-- Witness for `generate_referral_matrix_count` at a concrete input. -/
theorem generate_referral_matrix_count_witness :
    matGet (generate_referral_matrix ["a x"] []) 0 0 =
      (([] : List ReferralRec).filter (fun r => r.giver.full_name == "a x" &&
        r.receiver.full_name == "a x")).length ∧
    matGet (generate_referral_matrix ["a x"] []) 0 0 = 0 :=
  ⟨(generate_referral_matrix_count ["a x"] [] (by decide) 0 0 (by decide) (by decide)).1,
   (generate_referral_matrix_count ["a x"] [] (by decide) 0 0 (by decide) (by decide)).2
     (fun r hr => absurd hr (List.not_mem_nil r))⟩

/-! ## Claim C3: one-to-one matrix symmetry -/

theorem matGet_incCell2 {n : Nat} {m : List (List Nat)} (hm : SquareN n m)
    {a b : Nat} (ha : a < n) (hb : b < n) (i j : Nat) :
    matGet (incCell (incCell m a b) b a) i j =
      matGet m i j + (if a = i ∧ b = j then 1 else 0) +
        (if a = j ∧ b = i then 1 else 0) := by
  rw [matGet_incCell_sq (SquareN_incCell hm a b) hb ha, matGet_incCell_sq hm ha hb]
  simp only [show (b = i ∧ a = j) ↔ (a = j ∧ b = i) from and_comm]
  by_cases h1 : a = i ∧ b = j
  · by_cases h2 : a = j ∧ b = i
    · simp only [if_pos h1, if_pos h2]
      try omega
    · simp only [if_pos h1, if_neg h2]
      try omega
  · by_cases h2 : a = j ∧ b = i
    · simp only [if_neg h1, if_pos h2]
      try omega
    · simp only [if_neg h1, if_neg h2]
      try omega

theorem matGet_foldl_applyOneToOne_symm (names : List String) (otos : List OneToOneRec)
    (m : List (List Nat)) (hm : SquareN names.length m)
    (hsymm : ∀ i j, matGet m i j = matGet m j i) :
    ∀ i j, matGet (otos.foldl (applyOneToOne names) m) i j =
      matGet (otos.foldl (applyOneToOne names) m) j i := by
  induction otos generalizing m with
  | nil => exact hsymm
  | cons o os ih =>
    simp only [List.foldl_cons]
    by_cases hc : (names.contains o.member1.full_name &&
        names.contains o.member2.full_name) = true
    · have hmem := hc
      simp only [List.contains, Bool.and_eq_true, List.elem_iff] at hmem
      have ha : names.indexOf o.member1.full_name < names.length :=
        List.indexOf_lt_length.mpr hmem.1
      have hb : names.indexOf o.member2.full_name < names.length :=
        List.indexOf_lt_length.mpr hmem.2
      have happ : applyOneToOne names m o =
          incCell (incCell m (names.indexOf o.member1.full_name)
              (names.indexOf o.member2.full_name))
            (names.indexOf o.member2.full_name) (names.indexOf o.member1.full_name) := by
        unfold applyOneToOne
        rw [if_pos hc]
      simp only [happ]
      refine ih _ (SquareN_incCell (SquareN_incCell hm _ _) _ _) ?_
      intro i j
      rw [matGet_incCell2 hm ha hb i j, matGet_incCell2 hm ha hb j i, hsymm i j]
      omega
    · have happ : applyOneToOne names m o = m := by
        unfold applyOneToOne
        rw [if_neg hc]
      simp only [happ]
      exact ih m hm hsymm

/-- C3: every generated one-to-one matrix is symmetric — each meeting whose
two participants are both roster labels increments both (i,j) and (j,i), so
`matrix[i][j] == matrix[j][i]` for all indices (out-of-range reads are 0 on
both sides). -/
theorem generate_one_to_one_matrix_symm (names : List String) (otos : List OneToOneRec)
    (i j : Nat) :
    matGet (generate_one_to_one_matrix names otos) i j =
      matGet (generate_one_to_one_matrix names otos) j i :=
  matGet_foldl_applyOneToOne_symm names otos (mkZero names.length) (SquareN_mkZero _)
    (fun i j => by rw [matGet_mkZero, matGet_mkZero]) i j

/-! ## Claim C2: combination matrix derivation -/

theorem matGet_generate_combination (names : List String) (rs : List ReferralRec)
    (otos : List OneToOneRec) (i j : Nat) (hi : i < names.length) (hj : j < names.length) :
    matGet (generate_combination_matrix names rs otos) i j =
      if i = j then 0
      else if 0 < matGet (generate_referral_matrix names rs) i j ∧
          0 < matGet (generate_one_to_one_matrix names otos) i j then 3
      else if 0 < matGet (generate_referral_matrix names rs) i j then 2
      else if 0 < matGet (generate_one_to_one_matrix names otos) i j then 1
      else 0 := by
  unfold generate_combination_matrix matGet
  simp only [List.getD_eq_getElem?_getD, List.getElem?_map, List.getElem?_range hi,
    List.getElem?_range hj, Option.map_some', Option.getD_some]

/-- C2: for every roster with distinct display names and all in-range
indices i ≠ j, the combination cell is 3 iff both the referral and OTO cells
are positive, 2 iff only the referral cell is, 1 iff only the OTO cell is,
0 iff neither; and every diagonal cell is 0. -/
theorem generate_combination_matrix_spec (names : List String) (rs : List ReferralRec)
    (otos : List OneToOneRec) (hnd : names.Nodup) (i j : Nat)
    (hi : i < names.length) (hj : j < names.length) (hij : i ≠ j) :
    (matGet (generate_combination_matrix names rs otos) i j = 3 ↔
      0 < matGet (generate_referral_matrix names rs) i j ∧
      0 < matGet (generate_one_to_one_matrix names otos) i j) ∧
    (matGet (generate_combination_matrix names rs otos) i j = 2 ↔
      0 < matGet (generate_referral_matrix names rs) i j ∧
      ¬ 0 < matGet (generate_one_to_one_matrix names otos) i j) ∧
    (matGet (generate_combination_matrix names rs otos) i j = 1 ↔
      ¬ 0 < matGet (generate_referral_matrix names rs) i j ∧
      0 < matGet (generate_one_to_one_matrix names otos) i j) ∧
    (matGet (generate_combination_matrix names rs otos) i j = 0 ↔
      ¬ 0 < matGet (generate_referral_matrix names rs) i j ∧
      ¬ 0 < matGet (generate_one_to_one_matrix names otos) i j) ∧
    matGet (generate_combination_matrix names rs otos) i i = 0 := by
  have h := matGet_generate_combination names rs otos i j hi hj
  have hd := matGet_generate_combination names rs otos i i hi hi
  rw [if_neg hij] at h
  rw [if_pos rfl] at hd
  rw [h, hd]
  by_cases h1 : 0 < matGet (generate_referral_matrix names rs) i j <;>
    by_cases h2 : 0 < matGet (generate_one_to_one_matrix names otos) i j <;>
    simp [h1, h2]

/-- Witness for `generate_combination_matrix_spec` at a concrete input. -/
theorem generate_combination_matrix_spec_witness :
    (matGet (generate_combination_matrix ["a x", "b y"]
        [ReferralRec.mk (Member.mk "a" "x") (Member.mk "b" "y")] []) 0 1 = 3 ↔
      0 < matGet (generate_referral_matrix ["a x", "b y"]
        [ReferralRec.mk (Member.mk "a" "x") (Member.mk "b" "y")]) 0 1 ∧
      0 < matGet (generate_one_to_one_matrix ["a x", "b y"] []) 0 1) ∧
    (matGet (generate_combination_matrix ["a x", "b y"]
        [ReferralRec.mk (Member.mk "a" "x") (Member.mk "b" "y")] []) 0 1 = 2 ↔
      0 < matGet (generate_referral_matrix ["a x", "b y"]
        [ReferralRec.mk (Member.mk "a" "x") (Member.mk "b" "y")]) 0 1 ∧
      ¬ 0 < matGet (generate_one_to_one_matrix ["a x", "b y"] []) 0 1) ∧
    (matGet (generate_combination_matrix ["a x", "b y"]
        [ReferralRec.mk (Member.mk "a" "x") (Member.mk "b" "y")] []) 0 1 = 1 ↔
      ¬ 0 < matGet (generate_referral_matrix ["a x", "b y"]
        [ReferralRec.mk (Member.mk "a" "x") (Member.mk "b" "y")]) 0 1 ∧
      0 < matGet (generate_one_to_one_matrix ["a x", "b y"] []) 0 1) ∧
    (matGet (generate_combination_matrix ["a x", "b y"]
        [ReferralRec.mk (Member.mk "a" "x") (Member.mk "b" "y")] []) 0 1 = 0 ↔
      ¬ 0 < matGet (generate_referral_matrix ["a x", "b y"]
        [ReferralRec.mk (Member.mk "a" "x") (Member.mk "b" "y")]) 0 1 ∧
      ¬ 0 < matGet (generate_one_to_one_matrix ["a x", "b y"] []) 0 1) ∧
    matGet (generate_combination_matrix ["a x", "b y"]
      [ReferralRec.mk (Member.mk "a" "x") (Member.mk "b" "y")] []) 0 0 = 0 :=
  generate_combination_matrix_spec ["a x", "b y"]
    [ReferralRec.mk (Member.mk "a" "x") (Member.mk "b" "y")] [] (by decide) 0 1
    (by decide) (by decide) (by decide)

/-! ## Lemmas about the comparison engine -/

theorem findIdx?_map_nodup {α β : Type} [BEq β] [LawfulBEq β] (f : α → β) (l : List α)
    (hnd : (l.map f).Nodup) (i : Nat) (hi : i < l.length) :
    l.findIdx? (fun x => f x == f l[i]) = some i := by
  induction l generalizing i with
  | nil => simp at hi
  | cons x xs ih =>
    rw [List.map_cons, List.nodup_cons] at hnd
    obtain ⟨hx, hxs⟩ := hnd
    cases i with
    | zero => simp [List.findIdx?_cons]
    | succ k =>
      have hk : k < xs.length := by simpa using hi
      rw [List.findIdx?_cons]
      have hcond : (f x == f (x :: xs)[k + 1]) = false := by
        rw [List.getElem_cons_succ]
        refine beq_eq_false_iff_ne.mpr ?_
        intro he
        exact hx (he ▸ List.mem_map_of_mem f (List.getElem_mem hk))
      rw [if_neg (by rw [hcond]; exact Bool.false_ne_true)]
      rw [List.findIdx?_succ]
      simp only [List.getElem_cons_succ]
      rw [ih hxs k hk]
      rfl

theorem foldl_dictInsert_values {α : Type} {P : α → Prop} (f : Nat × String → α)
    (l : List (Nat × String)) (acc : List (String × α))
    (hacc : ∀ p ∈ acc, P p.2) (hf : ∀ q ∈ l, P (f q)) :
    ∀ p ∈ l.foldl (fun acc q => dictInsert acc q.2 (f q)) acc, P p.2 := by
  induction l generalizing acc with
  | nil => exact hacc
  | cons q l ih =>
    simp only [List.foldl_cons]
    refine ih _ ?_ (fun r hr => hf r (List.mem_cons_of_mem q hr))
    intro p hp
    unfold dictInsert at hp
    split at hp
    · rcases List.mem_map.mp hp with ⟨r, hr, hrp⟩
      by_cases hk : (r.1 == q.2) = true
      · rw [if_pos hk] at hrp
        rw [← hrp]
        exact hf q (List.mem_cons_self q l)
      · rw [if_neg hk] at hrp
        rw [← hrp]
        exact hacc r hr
    · rcases List.mem_append.mp hp with h | h
      · exact hacc p h
      · simp only [List.mem_singleton] at h
        rw [h]
        exact hf q (List.mem_cons_self q l)

theorem mkMemberChange_self (md : MatrixData)
    (hnd : (md.members.map normalize_name).Nodup) (i : Nat)
    (hi : i < md.members.length) :
    (mkMemberChange md md i md.members[i]).change = 0 ∧
    (mkMemberChange md md i md.members[i]).status = Status.no_change ∧
    (mkMemberChange md md i md.members[i]).is_new_member = false := by
  have hfp : findPrevIndex md.members (normalize_name md.members[i]) = some i :=
    findIdx?_map_nodup normalize_name md.members hnd i hi
  unfold mkMemberChange
  rw [hfp]
  simp

theorem calculate_summary_all_no_change (mc : List (String × MemberChange))
    (h : ∀ p ∈ mc, p.2.change = 0 ∧ p.2.status = Status.no_change ∧
      p.2.is_new_member = false) :
    (calculate_summary mc).improved = 0 ∧ (calculate_summary mc).declined = 0 ∧
    (calculate_summary mc).average_change = 0 := by
  have himp : (calculate_summary mc).improved =
      (mc.filter (fun p => p.2.status == Status.improved)).length := rfl
  have hdec : (calculate_summary mc).declined =
      (mc.filter (fun p => p.2.status == Status.declined)).length := rfl
  have havg : (calculate_summary mc).average_change =
      pyRound (if (mc.filter (fun p => !p.2.is_new_member)).length = 0 then 0
        else (((mc.filter (fun p => !p.2.is_new_member)).map (fun p => p.2.change)).sum : ℚ) /
          ((mc.filter (fun p => !p.2.is_new_member)).length : ℚ)) 2 := rfl
  refine ⟨?_, ?_, ?_⟩
  · rw [himp]
    have : mc.filter (fun p => p.2.status == Status.improved) = [] := by
      rw [List.filter_eq_nil_iff]
      intro p hp hb
      rw [(h p hp).2.1] at hb
      exact absurd hb (by decide)
    rw [this]
    rfl
  · rw [hdec]
    have : mc.filter (fun p => p.2.status == Status.declined) = [] := by
      rw [List.filter_eq_nil_iff]
      intro p hp hb
      rw [(h p hp).2.1] at hb
      exact absurd hb (by decide)
    rw [this]
    rfl
  · rw [havg]
    have hex : mc.filter (fun p => !p.2.is_new_member) = mc := by
      rw [List.filter_eq_self]
      intro p hp
      rw [(h p hp).2.2]
      rfl
    rw [hex]
    have hsum : (mc.map (fun p => (p.2.change : ℚ))).sum = 0 := by
      refine List.sum_eq_zero ?_
      intro x hx
      rcases List.mem_map.mp hx with ⟨p, hp, rfl⟩
      rw [(h p hp).1]
      exact Int.cast_zero
    rw [hsum]
    by_cases hlen : mc.length = 0 <;> simp [hlen, pyRound]

/-! ## Claim C5: comparing a snapshot with itself -/

/-- C5 counterexample: comparing a snapshot against itself does NOT always
yield all-zero changes.  With members ["mr. a b", "a b"] (distinct raw
names, identical normalized names) and matrix [[0,1],[0,0]], the second
member is aligned with the FIRST previous row whose normalized name matches,
i.e. row 0, so its change is 0 − 1 = −1 and the summary reports one
declined member. -/
theorem compare_self_not_identity :
    (compare_referral_matrices (MatrixData.mk ["mr. a b", "a b"] [[0, 1], [0, 0]])
      (MatrixData.mk ["mr. a b", "a b"] [[0, 1], [0, 0]])).summary.declined ≠ 0 := by
  decide

/-- C5 (amended): comparing a snapshot against itself yields, for every
member, change 0 and status no_change, and a summary with improved = 0,
declined = 0 and average_change = 0, provided the snapshot's member names
have pairwise-distinct normalized forms (so each member aligns with its own
previous row); two distinct spellings normalizing to the same string break
the claim, as the counterexample shows. -/
theorem compare_self_identity (md : MatrixData)
    (hnd : (md.members.map normalize_name).Nodup) :
    (∀ p ∈ (compare_referral_matrices md md).member_changes,
      p.2.change = 0 ∧ p.2.status = Status.no_change) ∧
    (compare_referral_matrices md md).summary.improved = 0 ∧
    (compare_referral_matrices md md).summary.declined = 0 ∧
    (compare_referral_matrices md md).summary.average_change = 0 := by
  have hP : ∀ p ∈ memberChanges md md,
      p.2.change = 0 ∧ p.2.status = Status.no_change ∧ p.2.is_new_member = false := by
    unfold memberChanges
    exact @foldl_dictInsert_values MemberChange
      (fun c => c.change = 0 ∧ c.status = Status.no_change ∧ c.is_new_member = false)
      (fun q => mkMemberChange md md q.1 q.2) md.members.enum []
      (fun p hp => absurd hp (List.not_mem_nil p))
      (fun q hq => by
        obtain ⟨hlt, hval⟩ := List.mem_enum (show (q.1, q.2) ∈ md.members.enum from hq)
        show (mkMemberChange md md q.1 q.2).change = 0 ∧
          (mkMemberChange md md q.1 q.2).status = Status.no_change ∧
          (mkMemberChange md md q.1 q.2).is_new_member = false
        rw [hval]
        exact mkMemberChange_self md hnd q.1 hlt)
  have hmc : (compare_referral_matrices md md).member_changes = memberChanges md md := rfl
  have hsum : (compare_referral_matrices md md).summary =
      calculate_summary (memberChanges md md) := rfl
  rw [hmc, hsum]
  exact ⟨fun p hp => ⟨(hP p hp).1, (hP p hp).2.1⟩,
    calculate_summary_all_no_change _ hP⟩

/-- Witness for `compare_self_identity` at a concrete snapshot. -/
theorem compare_self_identity_witness :
    (compare_referral_matrices (MatrixData.mk ["a b"] [[5]])
      (MatrixData.mk ["a b"] [[5]])).summary.improved = 0 ∧
    (compare_referral_matrices (MatrixData.mk ["a b"] [[5]])
      (MatrixData.mk ["a b"] [[5]])).summary.declined = 0 ∧
    (compare_referral_matrices (MatrixData.mk ["a b"] [[5]])
      (MatrixData.mk ["a b"] [[5]])).summary.average_change = 0 :=
  (compare_self_identity (MatrixData.mk ["a b"] [[5]]) (by decide)).2

/-! ## Claim C6: top-improvement / top-decline ordering -/

theorem mergeSort_desc_pairwise (mc : List (String × MemberChange)) :
    (mc.mergeSort (fun a b => decide (b.2.change ≤ a.2.change))).Pairwise
      (fun a b => b.2.change ≤ a.2.change) := by
  have h := @List.sorted_mergeSort (String × MemberChange)
    (fun a b => decide (b.2.change ≤ a.2.change))
    (fun a b c hab hbc => by
      simp only [decide_eq_true_eq] at hab hbc ⊢
      omega)
    (fun a b => by
      simp only [Bool.or_eq_true, decide_eq_true_eq]
      omega)
    mc
  exact h.imp (fun hab => by simpa using hab)

theorem mergeSort_asc_pairwise (mc : List (String × MemberChange)) :
    (mc.mergeSort (fun a b => decide (a.2.change ≤ b.2.change))).Pairwise
      (fun a b => a.2.change ≤ b.2.change) := by
  have h := @List.sorted_mergeSort (String × MemberChange)
    (fun a b => decide (a.2.change ≤ b.2.change))
    (fun a b c hab hbc => by
      simp only [decide_eq_true_eq] at hab hbc ⊢
      omega)
    (fun a b => by
      simp only [Bool.or_eq_true, decide_eq_true_eq]
      omega)
    mc
  exact h.imp (fun hab => by simpa using hab)

/-- C6: in every referral/OTO summary, `top_improvements` is sorted in
descending order of change and contains only entries with change > 0, and
`top_declines` is sorted in ascending order of change and contains only
entries with change < 0; both lists have at most 5 entries. -/
theorem calculate_summary_top_spec (mc : List (String × MemberChange)) :
    (calculate_summary mc).top_improvements.Pairwise (fun a b => b.change ≤ a.change) ∧
    (∀ e ∈ (calculate_summary mc).top_improvements, 0 < e.change) ∧
    (calculate_summary mc).top_improvements.length ≤ 5 ∧
    (calculate_summary mc).top_declines.Pairwise (fun a b => a.change ≤ b.change) ∧
    (∀ e ∈ (calculate_summary mc).top_declines, e.change < 0) ∧
    (calculate_summary mc).top_declines.length ≤ 5 := by
  have hti : (calculate_summary mc).top_improvements =
      (((mc.mergeSort (fun a b => decide (b.2.change ≤ a.2.change))).take 5).filter
        (fun p => decide (0 < p.2.change))).map
        (fun p => TopEntry.mk p.1 p.2.change p.2.current_total p.2.previous_total) := rfl
  have htd : (calculate_summary mc).top_declines =
      ((((mc.mergeSort (fun a b => decide (b.2.change ≤ a.2.change))).mergeSort
          (fun a b => decide (a.2.change ≤ b.2.change))).take 5).filter
        (fun p => decide (p.2.change < 0))).map
        (fun p => TopEntry.mk p.1 p.2.change p.2.current_total p.2.previous_total) := rfl
  rw [hti, htd]
  refine ⟨?_, ?_, ?_, ?_, ?_, ?_⟩
  · refine List.Pairwise.map _ (fun a b hab => hab) ?_
    refine List.Pairwise.sublist ?_ (mergeSort_desc_pairwise mc)
    exact (List.filter_sublist _).trans (List.take_sublist 5 _)
  · intro e he
    rcases List.mem_map.mp he with ⟨p, hp, hpe⟩
    rcases List.mem_filter.mp hp with ⟨_, hpos⟩
    rw [← hpe]
    exact of_decide_eq_true hpos
  · rw [List.length_map]
    exact (List.length_filter_le _ _).trans (List.length_take_le 5 _)
  · refine List.Pairwise.map _ (fun a b hab => hab) ?_
    refine List.Pairwise.sublist ?_
      (mergeSort_asc_pairwise (mc.mergeSort (fun a b => decide (b.2.change ≤ a.2.change))))
    exact (List.filter_sublist _).trans (List.take_sublist 5 _)
  · intro e he
    rcases List.mem_map.mp he with ⟨p, hp, hpe⟩
    rcases List.mem_filter.mp hp with ⟨_, hneg⟩
    rw [← hpe]
    exact of_decide_eq_true hneg
  · rw [List.length_map]
    exact (List.length_filter_le _ _).trans (List.length_take_le 5 _)

/-! ## Claim C8: cross-chapter comparison is rejected with a raised error -/

/-- C8: the whole-report comparison raises an explicitly-typed error
(`ValueError`, modelled by the outer `Except.error`) if and only if the two
reports belong to different chapters, and in that case no report is
produced; when the chapters agree a full comparison is always returned
(missing matrix data only yields soft `{'error': ...}` entries inside it,
never a raise). -/
theorem compare_monthly_reports_spec (cur prev : MonthlyReport) :
    ((∃ e, compare_monthly_reports cur prev = Except.error e) ↔
      cur.chapter ≠ prev.chapter) ∧
    ((∃ r, compare_monthly_reports cur prev = Except.ok r) ↔
      cur.chapter = prev.chapter) := by
  by_cases h : cur.chapter = prev.chapter <;>
    simp [compare_monthly_reports, h]

/-! ## Claim C7: sparse-XML row decoding and padding -/

theorem padHeadersAux_length (k : Nat) :
    ∀ hs : List String, (padHeadersAux k hs).length = hs.length + k := by
  induction k with
  | zero => intro hs; rfl
  | succ k ih =>
    intro hs
    show (padHeadersAux k (hs ++ ["Column_" ++ toString hs.length])).length = hs.length + (k + 1)
    rw [ih]
    simp only [List.length_append, List.length_singleton]
    omega

theorem foldl_max_le_init (l : List Nat) : ∀ acc, acc ≤ l.foldl max acc := by
  induction l with
  | nil => intro acc; exact le_refl acc
  | cons y ys ih => intro acc; exact le_trans (le_max_left acc y) (ih (max acc y))

theorem le_foldl_max (l : List Nat) :
    ∀ acc x, x ∈ l → x ≤ l.foldl max acc := by
  induction l with
  | nil => intro acc x hx; simp at hx
  | cons y ys ih =>
    intro acc x hx
    rcases List.mem_cons.mp hx with h | h
    · subst h
      exact le_trans (le_max_right acc x) (foldl_max_le_init ys (max acc x))
    · exact ih (max acc y) x h

theorem parse_xml_excel_row_lengths (rows : List (List XmlCell)) (hs : List String)
    (ds : List (List String)) (hok : parse_xml_excel rows = Except.ok (hs, ds)) :
    ∀ r ∈ ds, r.length = hs.length := by
  unfold parse_xml_excel at hok
  cases hdec : rows.map decodeRow with
  | nil =>
    rw [hdec] at hok
    exact absurd hok (by simp)
  | cons headers dataRows =>
    rw [hdec] at hok
    simp only [] at hok
    split at hok
    · exact absurd hok (by simp)
    · rename_i hne
      simp only [Except.ok.injEq, Prod.mk.injEq] at hok
      obtain ⟨hhs, hds⟩ := hok
      intro r hr
      rw [← hds] at hr
      rcases List.mem_map.mp hr with ⟨r0, hr0, rfl⟩
      have hr0le : r0.length ≤
          (((headers :: dataRows).map List.length).foldl max 0) :=
        le_foldl_max _ 0 r0.length
          (List.mem_map_of_mem List.length (List.mem_cons_of_mem headers hr0))
      have hhle : headers.length ≤
          (((headers :: dataRows).map List.length).foldl max 0) :=
        le_foldl_max _ 0 headers.length
          (List.mem_map_of_mem List.length (List.mem_cons_self headers dataRows))
      rw [← hhs]
      unfold padHeaders
      rw [padHeadersAux_length]
      simp only [List.length_append, List.length_replicate]
      omega

/-- C7: a sparse row with cells at explicit 1-based indices 1, 3 and 5
decodes to [v1, "", v3, "", v5] (length 5, empty strings at the skipped
positions 2 and 4); and whenever the decoder succeeds, every data row is
padded to exactly the header row's (maximum observed) length. -/
theorem parse_xml_excel_spec :
    (∀ a b c : String,
      decodeRow [XmlCell.mk (some 1) a, XmlCell.mk (some 3) b, XmlCell.mk (some 5) c] =
        [a, "", b, "", c]) ∧
    (∀ rows hs ds, parse_xml_excel rows = Except.ok (hs, ds) →
      ∀ r ∈ ds, r.length = hs.length) :=
  ⟨fun _ _ _ => rfl, parse_xml_excel_row_lengths⟩

/-- Witness for `parse_xml_excel_spec` at concrete inputs. -/
theorem parse_xml_excel_spec_witness :
    decodeRow [XmlCell.mk (some 1) "x", XmlCell.mk (some 3) "y", XmlCell.mk (some 5) "z"] =
      ["x", "", "y", "", "z"] ∧
    (["", "v"] : List String).length = (["h", "Column_1"] : List String).length :=
  ⟨parse_xml_excel_spec.1 "x" "y" "z",
   parse_xml_excel_spec.2 [[XmlCell.mk none "h"], [XmlCell.mk (some 2) "v"]]
     ["h", "Column_1"] [["", "v"]] rfl ["", "v"] (by simp)⟩

/-! ## Claim C9: TYFCB amount parsing and the positivity gate -/

/-- C9 counterexample: an amount cell spelled "nan" parses (after stripping
`$` and `,`) to Python float NaN, NaN is unordered so the `amount <= 0`
gate is False, and `_prepare_tyfcb` emits a TYFCB record whose amount is
NaN — which is NOT strictly greater than 0 (`nan > 0` is False).  This
falsifies the claim's conclusion that every emitted record has amount
strictly greater than 0. -/
theorem prepare_tyfcb_nan_counterexample :
    (prepare_tyfcb [none, none, none, none, none, none, some "nan"] 0 none
      (some "Bob Smith") [("bob smith", Member.mk "Bob" "Smith")]).1 =
      some (TYFCBRec.mk (Member.mk "Bob" "Smith") none PyFloat.nan false "") ∧
    PyFloat.nan.gtZero = false := by
  exact ⟨rfl, rfl⟩

/-- C9 (amended): whenever the parsed amount (currency symbols and commas
stripped; empty or unparseable input parses to 0.0) compares `<= 0`, no
record is emitted and at least one warning is recorded; hence every
emitted TYFCB record's amount fails the `<= 0` comparison — every emitted
FINITE amount is strictly greater than 0, but a cell parsing to float NaN
(e.g. "nan") passes the gate, because NaN is unordered, and is emitted
with a NaN amount. -/
theorem prepare_tyfcb_spec (row : List (Option String)) (row_idx : Nat)
    (giver_name receiver_name : Option String) (lookup : List (String × Member)) :
    (∀ t, (prepare_tyfcb row row_idx giver_name receiver_name lookup).1 = some t →
      t.amount.leZero = false) ∧
    (∀ t q, (prepare_tyfcb row row_idx giver_name receiver_name lookup).1 = some t →
      t.amount = PyFloat.num q → 0 < q) ∧
    ((parse_currency_amount (get_cell_value row col_tyfcb_amount)).leZero = true →
      (prepare_tyfcb row row_idx giver_name receiver_name lookup).1 = none ∧
      (prepare_tyfcb row row_idx giver_name receiver_name lookup).2 ≠ []) := by
  refine ⟨?_, ?_, ?_⟩
  · intro t ht
    unfold prepare_tyfcb at ht
    simp only [] at ht
    split at ht
    · simp at ht
    · split at ht
      · simp at ht
      · split at ht
        · simp at ht
        · rename_i hgt
          simp only [Option.some.injEq] at ht
          rw [← ht]
          exact Bool.eq_false_iff.mpr hgt
  · intro t q ht hq
    unfold prepare_tyfcb at ht
    simp only [] at ht
    split at ht
    · simp at ht
    · split at ht
      · simp at ht
      · split at ht
        · simp at ht
        · rename_i hgt
          simp only [Option.some.injEq] at ht
          rw [← ht] at hq
          have hq2 : parse_currency_amount (get_cell_value row col_tyfcb_amount) =
              PyFloat.num q := hq
          rw [hq2] at hgt
          simpa [PyFloat.leZero] using hgt
  · intro hle
    constructor
    · unfold prepare_tyfcb
      simp only []
      split
      · rfl
      · split
        · rfl
        · rfl
    · unfold prepare_tyfcb
      simp only []
      split
      · simp
      · split
        · simp
        · simp

/-- Witness for `prepare_tyfcb_spec` at concrete inputs: a row with amount
cell "5" yields an emitted record whose amount passes the gate and whose
finite value 5 is positive; a row with no amount cell (amount 0.0) yields
no record and a warning. -/
theorem prepare_tyfcb_spec_witness :
    (TYFCBRec.mk (Member.mk "Bob" "Smith") none (PyFloat.num ((5 : Nat) : ℚ)) false
      "").amount.leZero = false ∧
    (0 : ℚ) < ((5 : Nat) : ℚ) ∧
    (prepare_tyfcb [] 0 none none []).1 = none ∧
    (prepare_tyfcb [] 0 none none []).2 ≠ [] :=
  ⟨(prepare_tyfcb_spec [none, none, none, none, none, none, some "5"] 0 none
      (some "Bob Smith") [("bob smith", Member.mk "Bob" "Smith")]).1
      (TYFCBRec.mk (Member.mk "Bob" "Smith") none (PyFloat.num ((5 : Nat) : ℚ)) false "") rfl,
   (prepare_tyfcb_spec [none, none, none, none, none, none, some "5"] 0 none
      (some "Bob Smith") [("bob smith", Member.mk "Bob" "Smith")]).2.1
      (TYFCBRec.mk (Member.mk "Bob" "Smith") none (PyFloat.num ((5 : Nat) : ℚ)) false "")
      ((5 : Nat) : ℚ) rfl rfl,
   (prepare_tyfcb_spec [] 0 none none []).2.2 (by decide)⟩

/-! ## Claim C10: silently skipped rows vs unknown-slip-type warnings -/

/-- C10: a data row (index ≥ 3) whose slip-type cell is missing or empty is
skipped silently — the processing state is returned unchanged (no warning,
no `total_processed` increment) — whereas a row with a non-empty but
unrecognized slip-type value records exactly one "Unknown slip type"
warning and changes nothing else (in particular it is also excluded from
`total_processed`). -/
theorem processRow_slip_spec (lookup : List (String × Member)) (st : ProcState)
    (idx : Nat) (row : List (Option String)) (hidx : 3 ≤ idx) :
    (isFalsy (get_cell_value row col_slip_type) = true →
      processRow lookup st idx row = st) ∧
    (∀ s, get_cell_value row col_slip_type = some s → s ≠ "" →
      normalize_slip_type (some s) = none →
      processRow lookup st idx row =
        { st with warnings := st.warnings ++
            ["Row " ++ toString (idx + 1) ++ ": Unknown slip type " ++ s] }) := by
  constructor
  · intro h
    unfold processRow
    rw [if_neg (by omega)]
    simp only []
    rw [if_pos h]
  · intro s hs hne hnorm
    unfold processRow
    rw [if_neg (by omega)]
    simp only []
    rw [hs]
    rw [if_neg (by simp [isFalsy, hne])]
    rw [hnorm]
    rfl

/-- Witness for `processRow_slip_spec` at concrete inputs: an empty row is
skipped silently; a row with slip type "xyz" records one warning. -/
theorem processRow_slip_spec_witness :
    processRow [] initProcState 3 [] = initProcState ∧
    processRow [] initProcState 3 [none, none, none, some "xyz"] =
      { initProcState with warnings := initProcState.warnings ++
          ["Row " ++ toString (3 + 1) ++ ": Unknown slip type " ++ "xyz"] } :=
  ⟨(processRow_slip_spec [] initProcState 3 [] (by omega)).1 rfl,
   (processRow_slip_spec [] initProcState 3 [none, none, none, some "xyz"] (by omega)).2
     "xyz" rfl (by decide) rfl⟩

end BNI
